import Mathlib

/-!
Verification of the command-execution core of the `mneme` event-sourcing
library (Rust).  The data model and operations below are shallow embeddings
of the Rust source files:

* `src/error.rs`       → `Mneme.MError`
* `src/delay.rs`       → `Mneme.RetryDelay`, `Mneme.calculate_delay` family
* `src/config.rs`      → `Mneme.ExecuteConfig` and its builder methods
* `src/lib.rs`         → `Mneme.build_stateA`, `Mneme.executeA`
* `src/kurrent_adapter.rs` / spec §4.C / §6 → `Mneme.publishK`
* spec §4.H            → `Mneme.executeAux` / `Mneme.executeM`
  (the retrying `execute` of the final iteration is not present in the
  source tree; only its tests, collaborator traits and error type are, so
  the loop itself is modelled from the specification)

Machine integers (`u32`, `u64`) are embedded as `Nat`, with explicit
reduction modulo `2 ^ 64` exactly where the Rust code can overflow
(release-mode wrapping semantics).
-/

namespace Mneme

/-- Word size of Rust `u64`: values live in `[0, U64MOD)`. -/
def U64MOD : Nat := 2 ^ 64

/-- Embedding of `Error` from `src/error.rs`.  `UE` is the user-defined
command error type carried by `CommandFailed`'s `source` field.  The opaque
transport `source` of `EventStoreVersionMismatch` and the payloads of the
transparent transport/serde variants are embedded as strings.  Stream ids
(UUID strings) are embedded as `String`, versions (`u64`) as `Nat`,
`attempt`/`max_attempts`/`max_retries` (`u32`) as `Nat`. -/
inductive MError (UE : Type) where
  | eventStoreSettings (msg : String)
  | eventDeserialization (msg : String)
  | eventStoreStreamNotFound (streamId : String)
  | eventStoreVersionMismatch (stream : String) (expected actual : Option Nat)
  | eventStoreOther (msg : String)
  | commandFailed (message : String) (attempt maxAttempts : Nat) (source : UE)
  | maxRetriesExceeded (stream : String) (maxRetries : Nat)
  | invalidConfig (message : String) (parameter : Option String)
  deriving DecidableEq

/-- Embedding of `RetryDelay` from `src/delay.rs`: the two `u64` delay
fields, in milliseconds. -/
structure RetryDelay where
  base_delay_ms : Nat
  max_delay_ms : Nat
  deriving DecidableEq

/-- Embedding of `RetryDelay::new`. -/
def RetryDelay.new (base_delay_ms max_delay_ms : Nat) : RetryDelay :=
  ⟨base_delay_ms, max_delay_ms⟩

/-- Embedding of `RetryDelay::default` (`src/delay.rs`): base 100 ms,
max 30 000 ms. -/
def RetryDelay.defaultRD : RetryDelay :=
  ⟨100, 30000⟩

/-- Embedding of `2u64.pow(retry_count)` with release-mode (wrapping)
overflow semantics: the result is reduced modulo `2 ^ 64`. -/
def pow2u64 (retry_count : Nat) : Nat :=
  2 ^ retry_count % U64MOD

/-- Embedding of `let exp_delay = self.base_delay_ms * 2u64.pow(retry_count)`
from `RetryDelay::calculate_delay` (`src/delay.rs`), with wrapping `u64`
multiplication. -/
def RetryDelay.exp_delay (d : RetryDelay) (retry_count : Nat) : Nat :=
  d.base_delay_ms * pow2u64 retry_count % U64MOD

/-- Embedding of `let capped_delay = exp_delay.min(self.max_delay_ms)` from
`RetryDelay::calculate_delay` (`src/delay.rs`). -/
def RetryDelay.capped_delay (d : RetryDelay) (retry_count : Nat) : Nat :=
  min (d.exp_delay retry_count) d.max_delay_ms

/-- Embedding of `RetryDelay::calculate_delay` (`src/delay.rs`).  The
thread-local RNG draw `rng.gen_range(0..=capped_delay)` is modelled by the
parameter `draw : Nat → Nat`, where `draw n` stands for one uniform sample
from `[0, n]`; faithfulness of the draw is the hypothesis
`draw n ≤ n` supplied where needed. -/
def RetryDelay.calculate_delay (d : RetryDelay) (retry_count : Nat)
    (draw : Nat → Nat) : Nat :=
  draw (d.capped_delay retry_count)

/-- Embedding of the constant `MAX_RETRIES_LIMIT` (`src/config.rs`). -/
def MAX_RETRIES_LIMIT : Nat := 10

/-- Embedding of the constant `MIN_DELAY_MS` (`src/config.rs`). -/
def MIN_DELAY_MS : Nat := 50

/-- Embedding of the constant `MAX_DELAY_MS` (`src/config.rs`). -/
def MAX_DELAY_MS : Nat := 5000

/-- Embedding of `ExecuteConfig` (`src/config.rs`): a `u32` retry budget
and the retry-delay policy. -/
structure ExecuteConfig where
  max_retries : Nat
  retry_delay : RetryDelay
  deriving DecidableEq

/-- Embedding of `ExecuteConfig::default` (`src/config.rs`):
`max_retries = 3` and the default `RetryDelay`. -/
def ExecuteConfig.defaultEC : ExecuteConfig :=
  ⟨3, RetryDelay.defaultRD⟩

/-- Embedding of `ExecuteConfig::with_max_retries` (`src/config.rs`).
Config-builder errors never carry a user error, hence `MError Empty`. -/
def ExecuteConfig.with_max_retries (c : ExecuteConfig) (max_retries : Nat) :
    Except (MError Empty) ExecuteConfig :=
  if max_retries = 0 then
    .error (.invalidConfig "max_retries cannot be 0" (some "max_retries"))
  else if max_retries > MAX_RETRIES_LIMIT then
    .error (.invalidConfig ("max_retries cannot exceed " ++ toString MAX_RETRIES_LIMIT)
      (some "max_retries"))
  else
    .ok { c with max_retries := max_retries }

/-- Embedding of `ExecuteConfig::with_base_delay` (`src/config.rs`): the
new base delay is validated, then installed while the max delay is kept. -/
def ExecuteConfig.with_base_delay (c : ExecuteConfig) (delay_ms : Nat) :
    Except (MError Empty) ExecuteConfig :=
  if delay_ms = 0 then
    .error (.invalidConfig "base_retry_delay_ms cannot be 0" (some "base_retry_delay_ms"))
  else if delay_ms < MIN_DELAY_MS then
    .error (.invalidConfig
      ("base_retry_delay_ms must be at least " ++ toString MIN_DELAY_MS ++ "ms")
      (some "base_retry_delay_ms"))
  else if delay_ms > MAX_DELAY_MS then
    .error (.invalidConfig
      ("base_retry_delay_ms cannot exceed " ++ toString MAX_DELAY_MS ++ "ms")
      (some "base_retry_delay_ms"))
  else
    .ok { c with retry_delay := RetryDelay.new delay_ms c.retry_delay.max_delay_ms }

/-- Embedding of `ExecuteConfig::with_max_delay` (`src/config.rs`): rejects
a max delay below the current base delay, otherwise installs it while the
base delay is kept. -/
def ExecuteConfig.with_max_delay (c : ExecuteConfig) (max_delay_ms : Nat) :
    Except (MError Empty) ExecuteConfig :=
  if max_delay_ms < c.retry_delay.base_delay_ms then
    .error (.invalidConfig
      ("max_delay_ms (" ++ toString max_delay_ms ++
        ") cannot be less than base_delay_ms (" ++
        toString c.retry_delay.base_delay_ms ++ ")")
      (some "max_delay_ms"))
  else
    .ok { c with retry_delay := RetryDelay.new c.retry_delay.base_delay_ms max_delay_ms }

/-- Version of an event stream, embedded as its contents: the `u64`
revision of the last event, or `none` for an empty/absent stream
(spec §3 `EventStreamVersion`: after appending k events to an empty stream
the version is k − 1). -/
def currentVersion {E : Type} (s : List E) : Option Nat :=
  if s.isEmpty then none else some (s.length - 1)

/-- Modelled from the spec: the backend's atomic compare-and-append, which
is not under `src/` (the adapter `src/kurrent_adapter.rs` only maps to the
gRPC client).  Per §4.C/§6 and the adapter's `EventStore::publish` mapping,
`expected_version = Some v` becomes `ExpectedRevision::Exact(v)` — the
append succeeds iff the stream's last event currently has revision `v` —
and `None` becomes `ExpectedRevision::Any`, which always succeeds.  On a
wrong expected version the adapter's `append_to_stream` produces
`Error::EventStoreVersionMismatch` carrying the expected and current
revisions, and the store is unchanged. -/
def publishK {E UE : Type} (streamId : String) (s : List E) (events : List E)
    (expected : Option Nat) : Except (MError UE) (List E) :=
  match expected with
  | none => .ok (s ++ events)
  | some v =>
    if currentVersion s = some v then
      .ok (s ++ events)
    else
      .error (.eventStoreVersionMismatch streamId (some v) (currentVersion s))

/-- Command model for the final-iteration `Command` trait
(`src/command.rs`): a target stream id, the empty aggregate state
(`Default` bound of `AggregateState`), the pure fold step
`AggregateState::apply`, the user handler `handle`, and `to_string` of the
user error type (used for `CommandFailed.message`).  `mark_retry` defaults
to `clone` in the source and is modelled as the identity. -/
structure Cmd (E σ UE : Type) where
  streamId : String
  init : σ
  applyE : σ → E → σ
  handle : σ → Except UE (List E)
  errMsg : UE → String

/-- Outcome of one `read_stream` call as observed by the execute loop:
the read succeeds and yields the current stream contents, the backend
reports `NotFound`, or the read fails with some other error. -/
inductive ReadOutcome (UE : Type) where
  | readOk
  | notFound
  | failed (e : MError UE)

/-- Environment of one `execute` invocation, indexing behaviour by the
attempt counter `r`: how the read of attempt `r` goes, which events
concurrent writers append between attempt `r`'s read and its publish, and
a forced non-concurrency publish failure (transport/serialization) for
attempt `r`, if any. -/
structure World (E UE : Type) where
  readOutcome : Nat → ReadOutcome UE
  interfere : Nat → List E
  publishFail : Nat → Option (MError UE)

/-- Decidable equality for `Except`, needed so that concrete execution
traces can be compared by `decide`. -/
instance instDecEqExcept {ε α : Type _} [DecidableEq ε] [DecidableEq α] :
    DecidableEq (Except ε α) := fun
  | .error e, .error e' => decidable_of_iff (e = e') (by simp)
  | .error _, .ok _ => isFalse Except.noConfusion
  | .ok _, .error _ => isFalse Except.noConfusion
  | .ok a, .ok a' => decidable_of_iff (a = a') (by simp)

/-- Observable trace of one `execute` invocation: its result, the final
stream contents, the number of attempts, the number of `publish` calls,
the aggregate states successively passed to `handle`, and the
`expected_version` argument of each `publish` call. -/
structure ExecOut (E σ UE : Type) where
  result : Except (MError UE) Unit
  store : List E
  attempts : Nat
  publishCalls : Nat
  states : List σ
  expecteds : List (Option Nat)
  deriving DecidableEq

/-- Modelled from the spec: one attempt of the final-iteration execute
loop, §4.H, whose Rust body is not under `src/` (only its tests in
`tests/`, the `Command`/`EventStore` traits and the error type are).
Per §4.H with attempt counter `r`:

1. if `r > cfg.max_retries`, fail with `MaxRetriesExceeded{stream,
   max_retries}`;
2.–3. read the stream: any read error other than `NotFound` is returned
   unchanged; `NotFound` is treated as an empty stream; otherwise the
   events are folded through `apply` from the empty state and
   `expected_version` becomes the version of the last event consumed
   (absent when the stream is empty);
4. call `handle`; a user error is wrapped once as
   `CommandFailed{message = error.to_string(), attempt = r + 1,
   max_attempts = cfg.max_retries, source = error}`;
5. if the produced event list is empty, return success without publishing;
6. publish under `expected_version`; a `VersionMismatch` sleeps
   (`calculate_delay`, omitted here as time is not modelled), applies
   `mark_retry` (default: clone) and loops with `r + 1`; any other publish
   error is returned unchanged.

The spec's guard `r > cfg.max_retries` is encoded structurally by the
remaining-attempts counter `left`, with `r + left = cfg.max_retries + 1`
maintained by `executeM`, so `left = 0` exactly when `r` exceeds the
budget. -/
def executeAux {E σ UE : Type} (cfg : ExecuteConfig) (w : World E UE)
    (cmd : Cmd E σ UE) (store : List E) (r : Nat) (left : Nat) :
    ExecOut E σ UE :=
  match left with
  | 0 =>
    ⟨.error (.maxRetriesExceeded cmd.streamId cfg.max_retries), store, 0, 0, [], []⟩
  | left' + 1 =>
    match w.readOutcome r with
    | .failed e => ⟨.error e, store, 1, 0, [], []⟩
    | ro =>
      let h : List E := match ro with
        | .readOk => store
        | _ => []
      let st := h.foldl cmd.applyE cmd.init
      let expected : Option Nat := currentVersion h
      match cmd.handle st with
      | .error ue =>
        ⟨.error (.commandFailed (cmd.errMsg ue) (r + 1) cfg.max_retries ue),
          store, 1, 0, [st], []⟩
      | .ok events =>
        if events.isEmpty then
          ⟨.ok (), store, 1, 0, [st], []⟩
        else
          let store' := store ++ w.interfere r
          let pubRes : Except (MError UE) (List E) :=
            match w.publishFail r with
            | some e => .error e
            | none => publishK cmd.streamId store' events expected
          match pubRes with
          | .ok s2 => ⟨.ok (), s2, 1, 1, [st], [expected]⟩
          | .error (.eventStoreVersionMismatch _ _ _) =>
            let rest := executeAux cfg w cmd store' (r + 1) left'
            ⟨rest.result, rest.store, rest.attempts + 1, rest.publishCalls + 1,
              st :: rest.states, expected :: rest.expecteds⟩
          | .error e => ⟨.error e, store', 1, 1, [st], [expected]⟩

/-- Modelled from the spec: the final-iteration
`execute(command, event_store, config)` entry point (§4.H, §6 "Library
surface"), starting at attempt counter `r = 0` with a full budget of
`cfg.max_retries + 1` attempts. -/
def executeM {E σ UE : Type} (cfg : ExecuteConfig) (w : World E UE)
    (cmd : Cmd E σ UE) (store : List E) : ExecOut E σ UE :=
  executeAux cfg w cmd store 0 (cfg.max_retries + 1)

/-! Embedding of the `execute`/`build_state` pair that is present in
`src/lib.rs` (the multi-stream iteration with `handle_error` and
`AggregateStreamVersions`), used by the claims that cite those lines
directly. -/

/-- Embedding of `StorageError` (`src/lib.rs`): a version mismatch carrying
the expected and received per-stream version maps, or any other
storage-layer error as a string. -/
inductive StorageErrorA where
  | versionMismatch (expected received : List (String × Nat))
  | other (msg : String)
  deriving DecidableEq

/-- Embedding of `AggregateStreamVersions` (`src/lib.rs`): a map from
event-stream id to stream version.  The backing `HashMap` is embedded as
an association list; `update` is `HashMap::insert` (replace the binding if
the key is present, add it otherwise). -/
def AggregateStreamVersions : Type := List (String × Nat)

/-- Embedding of `AggregateStreamVersions::update` (`src/lib.rs`). -/
def AggregateStreamVersions.update (m : AggregateStreamVersions)
    (stream_id : String) (stream_version : Nat) : AggregateStreamVersions :=
  m.filter (fun p => p.1 ≠ stream_id) ++ [(stream_id, stream_version)]

/-- Embedding of `EventEnvelope` (`src/lib.rs`): an event together with its
stream id and absolute stream version. -/
structure EventEnvelopeA (E : Type) where
  event : E
  stream_id : String
  stream_version : Nat

/-- Embedding of `EventStreamQuery` (`src/lib.rs`): the list of stream ids
to be read. -/
structure EventStreamQuery where
  stream_ids : List String

/-- Command model for the `Command` trait of `src/lib.rs`: the aggregate
state's `Default` value and `apply_event` fold step, `handle`,
`event_stream_query` (defaulting to `None` in the trait), `handle_error`
(defaulting to `Ok(None)`), and the `From<StorageError>` conversion of the
associated error type. -/
structure CmdA (E σ UE FC : Type) where
  init : σ
  applyEvent : σ → E → σ
  handle : σ → Except UE (List E)
  eventStreamQuery : Option EventStreamQuery
  handleError : UE → Option FC → Except UE (Option FC)
  liftErr : StorageErrorA → UE

/-- Embedding of `build_state` (`src/lib.rs`): with no stream query the
state is `Default` and the version map stays empty and `read_stream` is
never called; otherwise the stream is read and folded, each envelope
updating the version map and being applied to the state; a read error
yields the `Default` state (`unwrap_or_else`) with the version map still
empty.  The event store's `read_stream` is passed as the function
`readS`.  The extra `Nat` result counts `read_stream` calls. -/
def build_stateA {E σ UE FC : Type} (cmd : CmdA E σ UE FC)
    (readS : EventStreamQuery → Except StorageErrorA (List (EventEnvelopeA E))) :
    (σ × AggregateStreamVersions) × Nat :=
  match cmd.eventStreamQuery with
  | none => ((cmd.init, []), 0)
  | some stream_query =>
    match readS stream_query with
    | .error _ => ((cmd.init, []), 1)
    | .ok event_stream =>
      (event_stream.foldl
        (fun p event_envelope =>
          (cmd.applyEvent p.1 event_envelope.event,
            p.2.update event_envelope.stream_id event_envelope.stream_version))
        (cmd.init, []), 1)

/-- Observable trace of one `src/lib.rs` `execute` invocation: its result
(`none` when the loop has not terminated within the given fuel), the
number of `read_stream` calls, the `expected_version` map passed to each
`publish` call, and the states successively passed to `handle`. -/
structure ExecAOut (σ UE : Type) where
  result : Option (Except UE Unit)
  readCalls : Nat
  publishedVersions : List AggregateStreamVersions
  states : List σ

/-- Embedding of `execute` (`src/lib.rs`): loop until the command succeeds
or `handle_error` tells us to stop — build the state and expected version,
run `handle` (`?` propagates its error), publish, and on a publish error
converted through `From<StorageError>` consult `handle_error`: a new
failure context continues the loop, `Ok(None)` returns the error, and an
error from `handle_error` itself propagates.  The store is modelled by the
pure functions `readS` and `pub_`; since the loop can run forever when
`handle_error` keeps recovering, it is indexed by `fuel`. -/
def executeA {E σ UE FC : Type} (fuel : Nat) (cmd : CmdA E σ UE FC)
    (readS : EventStreamQuery → Except StorageErrorA (List (EventEnvelopeA E)))
    (pub_ : List E → AggregateStreamVersions → Except StorageErrorA Unit)
    (failure_context : Option FC) : ExecAOut σ UE :=
  match fuel with
  | 0 => ⟨none, 0, [], []⟩
  | fuel' + 1 =>
    let sv := build_stateA cmd readS
    let state := sv.1.1
    let expected_version := sv.1.2
    match cmd.handle state with
    | .error e => ⟨some (.error e), sv.2, [], [state]⟩
    | .ok events =>
      match pub_ events expected_version with
      | .ok _ => ⟨some (.ok ()), sv.2, [expected_version], [state]⟩
      | .error se =>
        let error := cmd.liftErr se
        match cmd.handleError error failure_context with
        | .error e2 => ⟨some (.error e2), sv.2, [expected_version], [state]⟩
        | .ok none => ⟨some (.error error), sv.2, [expected_version], [state]⟩
        | .ok (some updated_failure_context) =>
          let rest := executeA fuel' cmd readS pub_ (some updated_failure_context)
          ⟨rest.result, sv.2 + rest.readCalls,
            expected_version :: rest.publishedVersions, state :: rest.states⟩

/-- Outcome of one `self.stream.next().await` call of the backend read
stream consumed by `EventStream::next` (`src/kurrent_adapter/stream.rs`):
a resolved event with its absolute revision, a `ResourceNotFound` error, a
transport error, or a payload that fails JSON decoding.  The backend
stream is embedded as the list of its successive outcomes; reaching the
end of the list is `Ok(None)`. -/
inductive BackendItem (E : Type) where
  | item (e : E) (revision : Nat)
  | resourceNotFound
  | otherErr (msg : String)
  | badJson (msg : String)

/-- Embedding of `EventStream::next` (`src/kurrent_adapter/stream.rs`):
`ResourceNotFound` from the backend is mapped to `Ok(None)` (end of
stream), any other backend error propagates unchanged (through
`From<eventstore::Error>`, i.e. `EventStoreOther`), a decode failure
becomes `EventDeserializationError`, and an event is returned with its
stream version. -/
def streamNext {E UE : Type} :
    List (BackendItem E) → Except (MError UE) (Option ((E × Nat) × List (BackendItem E)))
  | [] => .ok none
  | .item e v :: rest => .ok (some ((e, v), rest))
  | .resourceNotFound :: _ => .ok none
  | .otherErr m :: _ => .error (.eventStoreOther m)
  | .badJson m :: _ => .error (.eventDeserialization m)

/-- Repeated `EventStream::next` until `Ok(None)` or an error: the
sequence of `(event, version)` pairs the execute loop's fold consumes.
Defined by the same case split as `streamNext`. -/
def drainStream {E UE : Type} :
    List (BackendItem E) → Except (MError UE) (List (E × Nat))
  | [] => .ok []
  | .item e v :: rest =>
    match drainStream rest with
    | .error er => .error er
    | .ok l => .ok ((e, v) :: l)
  | .resourceNotFound :: _ => .ok []
  | .otherErr m :: _ => .error (.eventStoreOther m)
  | .badJson m :: _ => .error (.eventDeserialization m)

/-- One call of the `ExecuteConfig` builder (`src/config.rs`). -/
inductive BuilderOp where
  | maxRetriesOp (n : Nat)
  | baseDelayOp (d : Nat)
  | maxDelayOp (m : Nat)

/-- Truth of "this builder op is `with_max_delay`". -/
def BuilderOp.isMaxDelayOp : BuilderOp → Prop
  | .maxDelayOp _ => True
  | _ => False

/-- Truth of "this builder op is `with_base_delay`". -/
def BuilderOp.isBaseDelayOp : BuilderOp → Prop
  | .baseDelayOp _ => True
  | _ => False

/-- Application of one builder call to a configuration. -/
def applyOp (c : ExecuteConfig) : BuilderOp → Except (MError Empty) ExecuteConfig
  | .maxRetriesOp n => c.with_max_retries n
  | .baseDelayOp d => c.with_base_delay d
  | .maxDelayOp m => c.with_max_delay m

/-- Application of a sequence of builder calls, stopping at the first
rejected one (the Rust builder chains through `Result`). -/
def applyOps (c : ExecuteConfig) : List BuilderOp → Except (MError Empty) ExecuteConfig
  | [] => .ok c
  | op :: rest =>
    match applyOp c op with
    | .error e => .error e
    | .ok c' => applyOps c' rest

/-! Concrete fixtures used to evaluate the model on closed inputs:
a counting command over natural-number events (its state sums the events
it folds), and a few environments. -/

/-- Test command: state sums events, `handle` emits one event `state + 1`. -/
def natCmd : Cmd Nat Nat Unit :=
  ⟨"stream-1", 0, fun s e => s + e, fun s => .ok [s + 1], fun _ => "user error"⟩

/-- Test command: `handle` always returns the empty event list. -/
def noopCmd : Cmd Nat Nat Unit :=
  ⟨"stream-1", 0, fun s e => s + e, fun _ => .ok [], fun _ => ""⟩

/-- Test command: `handle` always fails with the user error `"no"`. -/
def rejectCmd : Cmd Nat Nat String :=
  ⟨"stream-1", 0, fun s e => s + e, fun _ => .error "no",
    fun e => "Command failed: " ++ e⟩

/-- Environment with no concurrent writers and no failures. -/
def quietWorld : World Nat Unit :=
  ⟨fun _ => .readOk, fun _ => [], fun _ => none⟩

/-- Environment with no concurrent writers and no failures, user-error
type `String`. -/
def quietWorldS : World Nat String :=
  ⟨fun _ => .readOk, fun _ => [], fun _ => none⟩

/-- Environment where a concurrent writer appends event `99` between every
read and the following publish. -/
def busyWorld : World Nat Unit :=
  ⟨fun _ => .readOk, fun _ => [99], fun _ => none⟩

/-- Environment where a concurrent writer appends event `11` between the
first read and the first publish only. -/
def loserWorld : World Nat Unit :=
  ⟨fun _ => .readOk, fun r => if r = 0 then [11] else [], fun _ => none⟩

/-- Environment whose every read fails with a transport error. -/
def readFailWorld : World Nat Unit :=
  ⟨fun _ => .failed (.eventStoreOther "net"), fun _ => [], fun _ => none⟩

/-- Environment whose every read reports `NotFound`. -/
def notFoundWorld : World Nat Unit :=
  ⟨fun _ => .notFound, fun _ => [], fun _ => none⟩

/-- Environment where every publish fails with a non-mismatch backend
error. -/
def pubFailWorld : World Nat Unit :=
  ⟨fun _ => .readOk, fun _ => [], fun _ => some (.eventStoreOther "boom")⟩

/-- Test command for the `src/lib.rs` iteration whose
`event_stream_query` is `None` (the trait default). -/
def queryFreeCmd : CmdA Nat Nat StorageErrorA Unit :=
  ⟨0, fun s e => s + e, fun _ => .ok [1], none, fun _ _ => .ok none, id⟩

/-! Helper lemmas. -/

/-- Publishing against the version just observed on the same stream
contents succeeds and appends. -/
theorem publishK_self {E UE : Type} (sid : String) (s es : List E) :
    @publishK E UE sid s es (currentVersion s) = .ok (s ++ es) := by
  by_cases h : s.isEmpty <;> simp [publishK, currentVersion, h]

/-- Publishing against a version observed before a concurrent append
fails with a version mismatch reporting the observed and current
versions. -/
theorem publishK_conflict {E UE : Type} (sid : String) (s t es : List E)
    (hs : s ≠ []) (ht : t ≠ []) :
    @publishK E UE sid (s ++ t) es (currentVersion s) =
      .error (.eventStoreVersionMismatch sid (currentVersion s)
        (currentVersion (s ++ t))) := by
  have hs' : s.isEmpty = false := by simp [hs]
  have hst : (s ++ t).isEmpty = false := by simp [hs]
  have h1 : 1 ≤ s.length := List.length_pos.mpr hs
  have h2 : 1 ≤ t.length := List.length_pos.mpr ht
  simp only [publishK, currentVersion, hst, hs', Bool.false_eq_true, if_false,
    List.length_append]
  rw [if_neg]
  simp only [Option.some.injEq]
  omega

/-- The capped delay of the source code never exceeds the mathematical
bound `min (b·2^r) m`, for `u64`-ranged `m`, even when the exponential
term wraps. -/
theorem capped_delay_le (d : RetryDelay) (r : Nat) (hm : d.max_delay_ms < U64MOD) :
    d.capped_delay r ≤ min (d.base_delay_ms * 2 ^ r) d.max_delay_ms := by
  unfold RetryDelay.capped_delay RetryDelay.exp_delay pow2u64
  rcases Nat.lt_or_ge (d.base_delay_ms * 2 ^ r) U64MOD with hov | hov
  · rcases Nat.eq_zero_or_pos d.base_delay_ms with hb | hb
    · simp [hb]
    · have hp : 2 ^ r < U64MOD := by
        calc 2 ^ r ≤ d.base_delay_ms * 2 ^ r := Nat.le_mul_of_pos_left _ hb
        _ < U64MOD := hov
      rw [Nat.mod_eq_of_lt hp, Nat.mod_eq_of_lt hov]
  · have : min (d.base_delay_ms * 2 ^ r) d.max_delay_ms = d.max_delay_ms := by
      apply Nat.min_eq_right; omega
    rw [this]
    exact Nat.min_le_right _ _

/-- Claim C7 (corrected part): the claim as stated is false — the
exponential term `b·2^r` does not saturate at `u64::MAX` with the result
capped at `m` on overflow; it wraps modulo `2^64` (Rust release-mode `*`
and `u64::pow`; with overflow checks it panics instead).  At base 100 ms,
cap 30 000 ms and `retry_count = 64`, `100·2^64` overflows `u64`, yet the
capped exponential term the code computes is `0`, not the cap
`m = 30000`. -/
theorem calc_delay_wraps_not_saturates :
    (RetryDelay.new 100 30000).capped_delay 64 = 0 ∧
    U64MOD ≤ 100 * 2 ^ 64 ∧
    ¬(RetryDelay.new 100 30000).capped_delay 64 = 30000 := by
  refine ⟨by decide, ?_, by decide⟩
  unfold U64MOD
  calc (2 : Nat) ^ 64 ≤ 100 * 2 ^ 64 := Nat.le_mul_of_pos_left _ (by norm_num)

/-- Claim C7 (amended): for every retry count `r`, base `b` and `u64` cap
`m`, `calculate_delay(r)` is total and every delay it can return lies in
`[0, min(b·2^r, m)]` milliseconds — the bound survives overflow because
the wrapped exponential term is still capped at `m`; but on overflow the
term wraps modulo `2^64` (or panics under overflow checks) rather than
saturating, so the cap actually used may be smaller than `m`. -/
theorem calc_delay_bounded (d : RetryDelay) (r : Nat) (draw : Nat → Nat)
    (hm : d.max_delay_ms < U64MOD)
    (hdraw : draw (d.capped_delay r) ≤ d.capped_delay r) :
    d.calculate_delay r draw ≤ min (d.base_delay_ms * 2 ^ r) d.max_delay_ms := by
  unfold RetryDelay.calculate_delay
  exact le_trans hdraw (capped_delay_le d r hm)

/-- Witness for `calc_delay_bounded` at base 100 ms, cap 1000 ms,
`retry_count = 3` and the maximal jitter draw. -/
theorem calc_delay_bounded_witness :
    (RetryDelay.new 100 1000).calculate_delay 3 (fun n => n) ≤
      min (100 * 2 ^ 3) 1000 :=
  calc_delay_bounded (RetryDelay.new 100 1000) 3 (fun n => n) (by decide)
    (Nat.le_refl _)

/-- Claim C8: the `ExecuteConfig` builder accepts exactly
`max_retries ∈ [1,10]` and `base_delay_ms ∈ [50,5000]`, rejects every
value outside those ranges — and any `max_delay_ms` below the current
`base_delay_ms` — with an `InvalidConfig` error tagged with the offending
parameter's name, accepted values are retrievable through the accessors
(the `ok` configuration carries exactly the accepted value, the other
fields unchanged), and the default configuration is
`(max_retries = 3, base_delay_ms = 100, max_delay_ms = 30000)`. -/
theorem config_builder_validation :
    (∀ (c : ExecuteConfig) (n : Nat), 1 ≤ n → n ≤ 10 →
      c.with_max_retries n = .ok ⟨n, c.retry_delay⟩) ∧
    (∀ (c : ExecuteConfig) (n : Nat), n = 0 ∨ 10 < n →
      ∃ msg, c.with_max_retries n = .error (.invalidConfig msg (some "max_retries"))) ∧
    (∀ (c : ExecuteConfig) (d : Nat), 50 ≤ d → d ≤ 5000 →
      c.with_base_delay d = .ok ⟨c.max_retries, ⟨d, c.retry_delay.max_delay_ms⟩⟩) ∧
    (∀ (c : ExecuteConfig) (d : Nat), d < 50 ∨ 5000 < d →
      ∃ msg, c.with_base_delay d = .error (.invalidConfig msg (some "base_retry_delay_ms"))) ∧
    (∀ (c : ExecuteConfig) (m : Nat), c.retry_delay.base_delay_ms ≤ m →
      c.with_max_delay m = .ok ⟨c.max_retries, ⟨c.retry_delay.base_delay_ms, m⟩⟩) ∧
    (∀ (c : ExecuteConfig) (m : Nat), m < c.retry_delay.base_delay_ms →
      ∃ msg, c.with_max_delay m = .error (.invalidConfig msg (some "max_delay_ms"))) ∧
    ExecuteConfig.defaultEC = ⟨3, ⟨100, 30000⟩⟩ := by
  refine ⟨?_, ?_, ?_, ?_, ?_, ?_, rfl⟩
  · intro c n h1 h2
    rw [ExecuteConfig.with_max_retries, if_neg (by omega),
      if_neg (by simp [MAX_RETRIES_LIMIT]; omega)]
  · intro c n h
    rcases h with h | h
    · exact ⟨_, by rw [ExecuteConfig.with_max_retries, if_pos h]⟩
    · exact ⟨_, by rw [ExecuteConfig.with_max_retries, if_neg (by omega),
        if_pos (by simp [MAX_RETRIES_LIMIT]; omega)]⟩
  · intro c d h1 h2
    rw [ExecuteConfig.with_base_delay, if_neg (by omega),
      if_neg (by simp [MIN_DELAY_MS]; omega), if_neg (by simp [MAX_DELAY_MS]; omega)]
    rfl
  · intro c d h
    rcases Nat.eq_zero_or_pos d with h0 | h0
    · exact ⟨_, by rw [ExecuteConfig.with_base_delay, if_pos h0]⟩
    · rcases h with h | h
      · exact ⟨_, by rw [ExecuteConfig.with_base_delay, if_neg (by omega),
          if_pos (by simp [MIN_DELAY_MS]; omega)]⟩
      · exact ⟨_, by rw [ExecuteConfig.with_base_delay, if_neg (by omega),
          if_neg (by simp [MIN_DELAY_MS]; omega), if_pos (by simp [MAX_DELAY_MS]; omega)]⟩
  · intro c m h
    rw [ExecuteConfig.with_max_delay, if_neg (by omega)]
    rfl
  · intro c m h
    exact ⟨_, by rw [ExecuteConfig.with_max_delay, if_pos h]⟩

/-- Witness for `config_builder_validation` on the default configuration:
5 retries accepted and retrievable, 0 rejected with parameter
`max_retries`; base delay 200 accepted, 49 rejected with parameter
`base_retry_delay_ms`; max delay 1000 accepted, 50 (below the base 100)
rejected with parameter `max_delay_ms`. -/
theorem config_builder_validation_witness :
    ExecuteConfig.defaultEC.with_max_retries 5 = .ok ⟨5, ⟨100, 30000⟩⟩ ∧
    (∃ msg, ExecuteConfig.defaultEC.with_max_retries 0 =
      .error (.invalidConfig msg (some "max_retries"))) ∧
    ExecuteConfig.defaultEC.with_base_delay 200 = .ok ⟨3, ⟨200, 30000⟩⟩ ∧
    (∃ msg, ExecuteConfig.defaultEC.with_base_delay 49 =
      .error (.invalidConfig msg (some "base_retry_delay_ms"))) ∧
    ExecuteConfig.defaultEC.with_max_delay 1000 = .ok ⟨3, ⟨100, 1000⟩⟩ ∧
    (∃ msg, ExecuteConfig.defaultEC.with_max_delay 50 =
      .error (.invalidConfig msg (some "max_delay_ms"))) :=
  ⟨config_builder_validation.1 _ 5 (by decide) (by decide),
    config_builder_validation.2.1 _ 0 (Or.inl rfl),
    config_builder_validation.2.2.1 _ 200 (by decide) (by decide),
    config_builder_validation.2.2.2.1 _ 49 (Or.inl (by decide)),
    config_builder_validation.2.2.2.2.1 _ 1000 (by decide),
    config_builder_validation.2.2.2.2.2.1 _ 50 (by decide)⟩

/-- Shape of a successful `with_max_retries`: the delays are unchanged. -/
theorem with_max_retries_ok {c c' : ExecuteConfig} {n : Nat}
    (h : c.with_max_retries n = .ok c') : c'.retry_delay = c.retry_delay := by
  rw [ExecuteConfig.with_max_retries] at h
  split at h
  · exact absurd h (by simp)
  · split at h
    · exact absurd h (by simp)
    · cases h; rfl

/-- Shape of a successful `with_base_delay`: the base delay becomes the
validated value (at most 5000 ms) and the max delay is kept. -/
theorem with_base_delay_ok {c c' : ExecuteConfig} {d : Nat}
    (h : c.with_base_delay d = .ok c') :
    c'.retry_delay = ⟨d, c.retry_delay.max_delay_ms⟩ ∧ d ≤ MAX_DELAY_MS := by
  rw [ExecuteConfig.with_base_delay] at h
  split at h
  · exact absurd h (by simp)
  · split at h
    · exact absurd h (by simp)
    · split at h
      · exact absurd h (by simp)
      · cases h; exact ⟨rfl, by omega⟩

/-- Shape of a successful `with_max_delay`: the max delay becomes the
validated value, which is at least the kept base delay. -/
theorem with_max_delay_ok {c c' : ExecuteConfig} {m : Nat}
    (h : c.with_max_delay m = .ok c') :
    c'.retry_delay = ⟨c.retry_delay.base_delay_ms, m⟩ ∧
      c.retry_delay.base_delay_ms ≤ m := by
  rw [ExecuteConfig.with_max_delay] at h
  split at h
  · exact absurd h (by simp)
  · cases h; exact ⟨rfl, by omega⟩

/-- Invariant carried through a sequence of builder calls with no
`with_max_delay`: the max delay never drops below 5000 ms, hence stays
above any base delay the builder can accept. -/
theorem applyOps_no_max_delay {ops : List BuilderOp} :
    ∀ {c c' : ExecuteConfig}, (∀ op ∈ ops, ¬op.isMaxDelayOp) →
      applyOps c ops = .ok c' →
      c.retry_delay.base_delay_ms ≤ c.retry_delay.max_delay_ms →
      MAX_DELAY_MS ≤ c.retry_delay.max_delay_ms →
      c'.retry_delay.base_delay_ms ≤ c'.retry_delay.max_delay_ms ∧
        MAX_DELAY_MS ≤ c'.retry_delay.max_delay_ms := by
  induction ops with
  | nil => intro c c' _ h hb hm; cases h; exact ⟨hb, hm⟩
  | cons op rest ih =>
    intro c c' hno h hb hm
    rw [applyOps] at h
    rcases hop : applyOp c op with e | c1
    · rw [hop] at h; exact absurd h (by simp)
    · rw [hop] at h
      rcases op with n | d | m
      · have hd := with_max_retries_ok hop
        exact ih (fun o ho => hno o (List.mem_cons_of_mem _ ho)) h
          (by rw [hd]; exact hb) (by rw [hd]; exact hm)
      · obtain ⟨hd, hle⟩ := with_base_delay_ok hop
        exact ih (fun o ho => hno o (List.mem_cons_of_mem _ ho)) h
          (by rw [hd]; exact le_trans hle hm) (by rw [hd]; exact hm)
      · exact absurd trivial (hno _ (List.mem_cons_self _ _))

/-- Invariant carried through a sequence of builder calls with no
`with_base_delay`: `max_delay_ms ≥ base_delay_ms` is preserved
(`with_max_delay` checks it, `with_max_retries` keeps the delays). -/
theorem applyOps_no_base_delay {ops : List BuilderOp} :
    ∀ {c c' : ExecuteConfig}, (∀ op ∈ ops, ¬op.isBaseDelayOp) →
      applyOps c ops = .ok c' →
      c.retry_delay.base_delay_ms ≤ c.retry_delay.max_delay_ms →
      c'.retry_delay.base_delay_ms ≤ c'.retry_delay.max_delay_ms := by
  induction ops with
  | nil => intro c c' _ h hb; cases h; exact hb
  | cons op rest ih =>
    intro c c' hno h hb
    rw [applyOps] at h
    rcases hop : applyOp c op with e | c1
    · rw [hop] at h; exact absurd h (by simp)
    · rw [hop] at h
      rcases op with n | d | m
      · have hd := with_max_retries_ok hop
        exact ih (fun o ho => hno o (List.mem_cons_of_mem _ ho)) h (by rw [hd]; exact hb)
      · exact absurd trivial (hno _ (List.mem_cons_self _ _))
      · obtain ⟨hd, hle⟩ := with_max_delay_ok hop
        exact ih (fun o ho => hno o (List.mem_cons_of_mem _ ho)) h (by rw [hd]; exact hle)

/-- Splitting a builder-call sequence. -/
theorem applyOps_append (l1 l2 : List BuilderOp) :
    ∀ c, applyOps c (l1 ++ l2) =
      match applyOps c l1 with
      | .error e => .error e
      | .ok c' => applyOps c' l2 := by
  induction l1 with
  | nil => intro c; rfl
  | cons op rest ih =>
    intro c
    rw [List.cons_append, applyOps, applyOps]
    rcases applyOp c op with e | c1
    · rfl
    · exact ih c1

/-- Claim C9 (counterexample): the claim as stated is false — a
configuration violating `max_delay_ms ≥ base_delay_ms` is reachable from
the default through successful builder calls, because `with_base_delay`
does not re-validate against the current max delay.  Concretely,
`default().with_max_delay(100)?.with_base_delay(5000)` succeeds and yields
`base_delay_ms = 5000 > 100 = max_delay_ms`. -/
theorem config_invariant_breakable :
    applyOps ExecuteConfig.defaultEC [.maxDelayOp 100, .baseDelayOp 5000] =
      .ok ⟨3, ⟨5000, 100⟩⟩ ∧
    (100 : Nat) < 5000 := by
  exact ⟨by decide, by decide⟩

/-- Claim C9 (amended): every `ExecuteConfig` reachable from the default
configuration through a sequence of successful builder calls in which no
`with_base_delay` call comes after a `with_max_delay` call satisfies
`max_delay_ms ≥ base_delay_ms`; in general `with_base_delay` does not
validate the new base against the current max delay, and calling it after
`with_max_delay` can break the invariant (see the counterexample). -/
theorem config_invariant_ordered (ops1 ops2 : List BuilderOp) (c : ExecuteConfig)
    (h1 : ∀ op ∈ ops1, ¬op.isMaxDelayOp)
    (h2 : ∀ op ∈ ops2, ¬op.isBaseDelayOp)
    (h : applyOps ExecuteConfig.defaultEC (ops1 ++ ops2) = .ok c) :
    c.retry_delay.base_delay_ms ≤ c.retry_delay.max_delay_ms := by
  rw [applyOps_append] at h
  rcases hmid : applyOps ExecuteConfig.defaultEC ops1 with e | cmid
  · rw [hmid] at h; exact absurd h (by simp)
  · rw [hmid] at h
    obtain ⟨hb, _⟩ := applyOps_no_max_delay h1 hmid (by decide) (by decide)
    exact applyOps_no_base_delay h2 h hb

/-- Witness for `config_invariant_ordered`: base delay 200 then max delay
400, both accepted, end in a configuration satisfying the invariant. -/
theorem config_invariant_ordered_witness :
    (⟨3, ⟨200, 400⟩⟩ : ExecuteConfig).retry_delay.base_delay_ms ≤
      (⟨3, ⟨200, 400⟩⟩ : ExecuteConfig).retry_delay.max_delay_ms :=
  config_invariant_ordered [.baseDelayOp 200] [.maxDelayOp 400] _
    (by intro op h; simp at h; subst h; exact not_false)
    (by intro op h; simp at h; subst h; exact not_false)
    (by decide)

/-- Claim C2: for every prior stream history `H` and command whose
`handle` returns the single event `e` on the state folded from `H`, a
successful `execute` (read succeeds, no concurrent writer, no backend
failure) leaves the stream contents equal to `H ++ [e]`, and the state
`handle` received equals the left fold of `apply` over `H` starting from
the empty state. -/
theorem execute_appends_and_folds {E σ UE : Type} (cfg : ExecuteConfig)
    (w : World E UE) (cmd : Cmd E σ UE) (H : List E) (e : E)
    (hr : w.readOutcome 0 = .readOk)
    (hi : w.interfere 0 = [])
    (hp : w.publishFail 0 = none)
    (hh : cmd.handle (H.foldl cmd.applyE cmd.init) = .ok [e]) :
    executeM cfg w cmd H =
      ⟨.ok (), H ++ [e], 1, 1, [H.foldl cmd.applyE cmd.init],
        [currentVersion H]⟩ := by
  unfold executeM
  simp [executeAux, hr, hi, hp, hh, publishK_self]

/-- Witness for `execute_appends_and_folds`: history `[1, 2]` folds to
`3` with the summing command, which emits `4`; the final stream is
`[1, 2, 4]`. -/
theorem execute_appends_and_folds_witness :
    executeM ExecuteConfig.defaultEC quietWorld natCmd [1, 2] =
      ⟨.ok (), [1, 2, 4], 1, 1, [3], [some 1]⟩ :=
  execute_appends_and_folds ExecuteConfig.defaultEC quietWorld natCmd [1, 2] 4
    rfl rfl rfl rfl

/-- Claim C4: for every command whose `handle` returns an empty event
list, `execute` returns success without calling `publish`, and the event
store's contents are unchanged by the invocation. -/
theorem empty_events_noop {E σ UE : Type} (cfg : ExecuteConfig)
    (w : World E UE) (cmd : Cmd E σ UE) (store : List E)
    (hr : w.readOutcome 0 = .readOk)
    (hh : cmd.handle (store.foldl cmd.applyE cmd.init) = .ok []) :
    executeM cfg w cmd store =
      ⟨.ok (), store, 1, 0, [store.foldl cmd.applyE cmd.init], []⟩ := by
  unfold executeM
  simp [executeAux, hr, hh]

/-- Witness for `empty_events_noop`: the no-event command on store
`[3, 4]` succeeds, publishes nothing and leaves the store unchanged. -/
theorem empty_events_noop_witness :
    executeM ExecuteConfig.defaultEC quietWorld noopCmd [3, 4] =
      ⟨.ok (), [3, 4], 1, 0, [7], []⟩ :=
  empty_events_noop ExecuteConfig.defaultEC quietWorld noopCmd [3, 4] rfl rfl

/-- Claim C5: for every command whose `handle` returns the user error
`ue` on attempt `r + 1`, `execute` returns `CommandFailed` with
`message = to_string(ue)`, `attempt = r + 1`,
`max_attempts = cfg.max_retries`, and the original user error as its
`source` field; the error is wrapped exactly once (the result is the bare
`CommandFailed` constructor around `ue`) and is terminal — one attempt, no
publish, store unchanged. -/
theorem user_error_wrapped_once {E σ UE : Type} (cfg : ExecuteConfig)
    (w : World E UE) (cmd : Cmd E σ UE) (store : List E) (r l : Nat) (ue : UE)
    (hr : w.readOutcome r = .readOk)
    (hh : cmd.handle (store.foldl cmd.applyE cmd.init) = .error ue) :
    executeAux cfg w cmd store r (l + 1) =
      ⟨.error (.commandFailed (cmd.errMsg ue) (r + 1) cfg.max_retries ue),
        store, 1, 0, [store.foldl cmd.applyE cmd.init], []⟩ := by
  simp [executeAux, hr, hh]

/-- Witness for `user_error_wrapped_once`: the rejecting command fails on
the first attempt with `CommandFailed{message = "Command failed: no",
attempt = 1, max_attempts = 3, source = "no"}`. -/
theorem user_error_wrapped_once_witness :
    executeAux ExecuteConfig.defaultEC quietWorldS rejectCmd [] 0 (3 + 1) =
      ⟨.error (.commandFailed "Command failed: no" 1 3 "no"), [], 1, 0, [0], []⟩ :=
  user_error_wrapped_once ExecuteConfig.defaultEC quietWorldS rejectCmd [] 0 3 "no"
    rfl rfl

/-- Claim C6: in the read phase of every `execute` attempt, a
`read_stream` failure other than `NotFound` is returned to the caller
unchanged and is terminal (no publish, no retry, store unchanged), whereas
a `NotFound` outcome is treated as an empty stream: execution proceeds to
`handle` with the empty state and publishes under an absent expected
version (which succeeds whatever the stream's current contents are).  At
the stream-adapter level, a backend `ResourceNotFound` is consumed as end
of stream while any other backend error propagates unchanged. -/
theorem read_phase_error_handling :
    (∀ (E σ UE : Type) (cfg : ExecuteConfig) (w : World E UE)
      (cmd : Cmd E σ UE) (store : List E) (r l : Nat) (e : MError UE),
      w.readOutcome r = .failed e →
      executeAux cfg w cmd store r (l + 1) = ⟨.error e, store, 1, 0, [], []⟩) ∧
    (∀ (E σ UE : Type) (cfg : ExecuteConfig) (w : World E UE)
      (cmd : Cmd E σ UE) (store : List E) (r l : Nat) (es : List E),
      w.readOutcome r = .notFound →
      cmd.handle cmd.init = .ok es →
      es.isEmpty = false →
      w.publishFail r = none →
      executeAux cfg w cmd store r (l + 1) =
        ⟨.ok (), store ++ w.interfere r ++ es, 1, 1, [cmd.init], [none]⟩) ∧
    (∀ (E UE : Type) (rest : List (BackendItem E)),
      @drainStream E UE (.resourceNotFound :: rest) = .ok []) ∧
    (∀ (E UE : Type) (m : String) (rest : List (BackendItem E)),
      @drainStream E UE (.otherErr m :: rest) =
        .error (.eventStoreOther m)) := by
  refine ⟨?_, ?_, fun _ _ _ => rfl, fun _ _ _ _ => rfl⟩
  · intro E σ UE cfg w cmd store r l e hr
    simp [executeAux, hr]
  · intro E σ UE cfg w cmd store r l es hr hh hne hp
    simp [executeAux, hr, hh, hne, hp, publishK, currentVersion, List.append_assoc]

/-- Witness for `read_phase_error_handling`: a failing read surfaces the
transport error unchanged; a `NotFound` read hands the empty state to
`handle` and publishes its event under an absent expected version onto a
non-empty store. -/
theorem read_phase_error_handling_witness :
    executeAux ExecuteConfig.defaultEC readFailWorld natCmd [5] 0 (3 + 1) =
      ⟨.error (.eventStoreOther "net"), [5], 1, 0, [], []⟩ ∧
    executeAux ExecuteConfig.defaultEC notFoundWorld natCmd [7] 0 (3 + 1) =
      ⟨.ok (), [7, 1], 1, 1, [0], [none]⟩ ∧
    @drainStream Nat Unit [.resourceNotFound] = .ok [] ∧
    @drainStream Nat Unit [.otherErr "boom"] =
      .error (.eventStoreOther "boom") :=
  ⟨read_phase_error_handling.1 Nat Nat Unit _ readFailWorld natCmd [5] 0 3 _ rfl,
    read_phase_error_handling.2.1 Nat Nat Unit _ notFoundWorld natCmd [7] 0 3 [1]
      rfl rfl rfl rfl,
    read_phase_error_handling.2.2.1 Nat Unit [],
    read_phase_error_handling.2.2.2 Nat Unit "boom" []⟩

/-- Loop invariant for a command that conflicts on every publish: with
`left` attempts remaining, the loop performs exactly `left` further
attempts — each re-reading and re-folding the (grown) stream and
publishing once — and ends in `MaxRetriesExceeded` with the command's
stream id and the configured budget. -/
theorem conflict_loop {E σ UE : Type} (cfg : ExecuteConfig) (w : World E UE)
    (cmd : Cmd E σ UE)
    (hr : ∀ r, w.readOutcome r = .readOk)
    (hpf : ∀ r, w.publishFail r = none)
    (hint : ∀ r, w.interfere r ≠ [])
    (hh : ∀ s, ∃ es, cmd.handle s = .ok es ∧ es ≠ []) :
    ∀ (left r : Nat) (store : List E), store ≠ [] →
      (executeAux cfg w cmd store r left).result =
        .error (.maxRetriesExceeded cmd.streamId cfg.max_retries) ∧
      (executeAux cfg w cmd store r left).attempts = left ∧
      (executeAux cfg w cmd store r left).publishCalls = left ∧
      (executeAux cfg w cmd store r left).states.length = left := by
  intro left
  induction left with
  | zero => intro r store hs; exact ⟨rfl, rfl, rfl, rfl⟩
  | succ left' ih =>
    intro r store hs
    obtain ⟨es, hes, hne⟩ := hh (store.foldl cmd.applyE cmd.init)
    have hne' : es.isEmpty = false := by
      cases es
      · exact absurd rfl hne
      · rfl
    have hconf := @publishK_conflict E UE cmd.streamId store (w.interfere r)
      es hs (hint r)
    obtain ⟨ih1, ih2, ih3, ih4⟩ := ih (r + 1) (store ++ w.interfere r) (by simp [hs])
    simp only [executeAux, hr r, hes, hne', hpf r, hconf, Bool.false_eq_true,
      if_false]
    exact ⟨ih1, by simpa using ih2, by simpa using ih3, by simpa using ih4⟩

/-- Claim C3: for every configuration and every command for which publish
fails with `VersionMismatch` on every attempt (every read succeeds, a
concurrent writer appends between every read and publish, `handle` always
produces events), `execute` performs exactly `cfg.max_retries + 1`
attempts — each re-reading and re-folding the stream, as the one state per
attempt in the trace records — and then returns `MaxRetriesExceeded`
carrying the command's stream id and `cfg.max_retries`.  It never retries
any other kind of failure: a publish failure that is not a
`VersionMismatch` is returned unchanged after a single attempt. -/
theorem retry_budget_exhaustion :
    (∀ (E σ UE : Type) (cfg : ExecuteConfig) (w : World E UE)
      (cmd : Cmd E σ UE) (store : List E),
      (∀ r, w.readOutcome r = .readOk) →
      (∀ r, w.publishFail r = none) →
      (∀ r, w.interfere r ≠ []) →
      (∀ s, ∃ es, cmd.handle s = .ok es ∧ es ≠ []) →
      store ≠ [] →
      (executeM cfg w cmd store).result =
        .error (.maxRetriesExceeded cmd.streamId cfg.max_retries) ∧
      (executeM cfg w cmd store).attempts = cfg.max_retries + 1 ∧
      (executeM cfg w cmd store).publishCalls = cfg.max_retries + 1 ∧
      (executeM cfg w cmd store).states.length = cfg.max_retries + 1) ∧
    (∀ (E σ UE : Type) (cfg : ExecuteConfig) (w : World E UE)
      (cmd : Cmd E σ UE) (store : List E) (r l : Nat) (es : List E)
      (err : MError UE),
      w.readOutcome r = .readOk →
      cmd.handle (store.foldl cmd.applyE cmd.init) = .ok es →
      es.isEmpty = false →
      w.publishFail r = some err →
      (∀ a b c, err ≠ .eventStoreVersionMismatch a b c) →
      executeAux cfg w cmd store r (l + 1) =
        ⟨.error err, store ++ w.interfere r, 1, 1,
          [store.foldl cmd.applyE cmd.init], [currentVersion store]⟩) := by
  constructor
  · intro E σ UE cfg w cmd store hr hpf hint hh hs
    exact conflict_loop cfg w cmd hr hpf hint hh (cfg.max_retries + 1) 0 store hs
  · intro E σ UE cfg w cmd store r l es err hr hh hne hpf hnm
    cases err
    case eventStoreVersionMismatch a b c => exact absurd rfl (hnm a b c)
    all_goals simp [executeAux, hr, hh, hne, hpf]

/-- Witness for `retry_budget_exhaustion`: with the default budget of 3
retries and a writer always racing ahead, the summing command makes
4 attempts then fails with `MaxRetriesExceeded`; and a non-mismatch
publish failure is surfaced unchanged after one attempt. -/
theorem retry_budget_exhaustion_witness :
    ((executeM ExecuteConfig.defaultEC busyWorld natCmd [5]).result =
        .error (.maxRetriesExceeded "stream-1" 3) ∧
      (executeM ExecuteConfig.defaultEC busyWorld natCmd [5]).attempts = 4 ∧
      (executeM ExecuteConfig.defaultEC busyWorld natCmd [5]).publishCalls = 4 ∧
      (executeM ExecuteConfig.defaultEC busyWorld natCmd [5]).states.length = 4) ∧
    executeAux ExecuteConfig.defaultEC pubFailWorld natCmd [5] 0 (3 + 1) =
      ⟨.error (.eventStoreOther "boom"), [5], 1, 1, [5], [some 0]⟩ :=
  ⟨retry_budget_exhaustion.1 Nat Nat Unit ExecuteConfig.defaultEC busyWorld
      natCmd [5] (fun _ => rfl) (fun _ => rfl) (fun _ => List.cons_ne_nil 99 [])
      (fun s => ⟨[s + 1], rfl, by simp⟩) (by decide),
    retry_budget_exhaustion.2 Nat Nat Unit ExecuteConfig.defaultEC pubFailWorld
      natCmd [5] 0 3 [6] (.eventStoreOther "boom") rfl rfl rfl rfl
      (fun _ _ _ h => nomatch h)⟩

/-- Claim C1: two concurrent `execute` invocations on the same stream that
observed the same version `v` are decided by the backend's per-stream
linearization of their publishes: whichever non-empty append is linearized
first succeeds, and the second then receives a `VersionMismatch` (in
either order) — so at most one wins, and the loser neither overwrites nor
interleaves with the winner's append.  Moreover the loser must retry from
a fresh read: in a run where the winner's events land between the loser's
read and publish, the loser's first publish conflicts, and its second
attempt re-reads the stream including the winner's events and appends
strictly after them. -/
theorem at_most_one_winner :
    (∀ (E UE : Type) (sid : String) (s es1 es2 : List E) (v : Nat),
      currentVersion s = some v → es1 ≠ [] → es2 ≠ [] →
      (@publishK E UE sid s es1 (some v) = .ok (s ++ es1) ∧
        @publishK E UE sid (s ++ es1) es2 (some v) =
          .error (.eventStoreVersionMismatch sid (some v)
            (currentVersion (s ++ es1)))) ∧
      (@publishK E UE sid s es2 (some v) = .ok (s ++ es2) ∧
        @publishK E UE sid (s ++ es2) es1 (some v) =
          .error (.eventStoreVersionMismatch sid (some v)
            (currentVersion (s ++ es2))))) ∧
    (∀ (E σ UE : Type) (cfg : ExecuteConfig) (w : World E UE)
      (cmd : Cmd E σ UE) (s es1 es2 es2' : List E) (v k : Nat),
      cfg.max_retries = k + 1 →
      (∀ r, w.readOutcome r = .readOk) →
      (∀ r, w.publishFail r = none) →
      w.interfere 0 = es1 → es1 ≠ [] →
      w.interfere 1 = [] →
      currentVersion s = some v →
      cmd.handle (s.foldl cmd.applyE cmd.init) = .ok es2 →
      es2.isEmpty = false →
      cmd.handle ((s ++ es1).foldl cmd.applyE cmd.init) = .ok es2' →
      es2'.isEmpty = false →
      executeM cfg w cmd s =
        ⟨.ok (), s ++ es1 ++ es2', 2, 2,
          [s.foldl cmd.applyE cmd.init, (s ++ es1).foldl cmd.applyE cmd.init],
          [currentVersion s, currentVersion (s ++ es1)]⟩) := by
  constructor
  · intro E UE sid s es1 es2 v hv h1 h2
    have hs : s ≠ [] := by
      intro h
      rw [h] at hv
      simp [currentVersion] at hv
    have c1 := @publishK_conflict E UE sid s es1 es2 hs h1
    have c2 := @publishK_conflict E UE sid s es2 es1 hs h2
    rw [hv] at c1 c2
    refine ⟨⟨?_, c1⟩, ⟨?_, c2⟩⟩ <;> simp [publishK, hv]
  · intro E σ UE cfg w cmd s es1 es2 es2' v k hmr hr hpf hi0 hes1 hi1 hv
      hh0 hne0 hh1 hne1
    have hs : s ≠ [] := by
      intro h
      rw [h] at hv
      simp [currentVersion] at hv
    have hconf := @publishK_conflict E UE cmd.streamId s es1 es2 hs hes1
    have hh1' : cmd.handle (List.foldl cmd.applyE (List.foldl cmd.applyE cmd.init s) es1) =
        .ok es2' := by
      rw [← List.foldl_append]
      exact hh1
    unfold executeM
    rw [hmr]
    simp [executeAux, hr 0, hr 1, hh0, hh1', hne0, hne1, hpf 0, hpf 1,
      hi0, hi1, hconf, publishK_self]

/-- Witness for `at_most_one_winner`: on stream contents `[10]` (version
0), the winner appends `[11]` and the loser's publish of `[12]` at
expected version 0 then fails with a mismatch, in either order; and under
the default configuration the losing summing command retries from a fresh
read and ends with the stream `[10, 11, 22]` after 2 attempts. -/
theorem at_most_one_winner_witness :
    (@publishK Nat Unit "stream-1" [10] [11] (some 0) = .ok [10, 11] ∧
      @publishK Nat Unit "stream-1" [10, 11] [12] (some 0) =
        .error (.eventStoreVersionMismatch "stream-1" (some 0) (some 1))) ∧
    executeM ExecuteConfig.defaultEC loserWorld natCmd [10] =
      ⟨.ok (), [10, 11, 22], 2, 2, [10, 21], [some 0, some 1]⟩ :=
  ⟨((at_most_one_winner.1 Nat Unit "stream-1" [10] [11] [12] 0 rfl
      (by decide) (by decide)).1),
    at_most_one_winner.2 Nat Nat Unit ExecuteConfig.defaultEC loserWorld
      natCmd [10] [11] [11] [22] 0 2 rfl (fun _ => rfl) (fun _ => rfl)
      rfl (by decide) rfl rfl rfl rfl rfl rfl⟩

/-- Loop invariant for the `src/lib.rs` executor on a command without a
stream query: no iteration reads the stream, every iteration passes the
`Default` state to `handle` and the empty version map to `publish`. -/
theorem executeA_no_query {E σ UE FC : Type} (cmd : CmdA E σ UE FC)
    (hq : cmd.eventStreamQuery = none) :
    ∀ (fuel : Nat)
      (readS : EventStreamQuery → Except StorageErrorA (List (EventEnvelopeA E)))
      (pub_ : List E → AggregateStreamVersions → Except StorageErrorA Unit)
      (fc : Option FC),
      (executeA fuel cmd readS pub_ fc).readCalls = 0 ∧
      (∀ v ∈ (executeA fuel cmd readS pub_ fc).publishedVersions,
        v = ([] : AggregateStreamVersions)) ∧
      (∀ s ∈ (executeA fuel cmd readS pub_ fc).states, s = cmd.init) := by
  intro fuel
  induction fuel with
  | zero =>
    intro readS pub_ fc
    exact ⟨rfl, by simp [executeA], by simp [executeA]⟩
  | succ fuel' ih =>
    intro readS pub_ fc
    have hbs : build_stateA cmd readS = ((cmd.init, []), 0) := by
      simp [build_stateA, hq]
    rcases hh : cmd.handle cmd.init with e | events
    · refine ⟨?_, ?_, ?_⟩ <;> simp [executeA, hbs, hh]
    · rcases hp : pub_ events [] with se | u
      · rcases he : cmd.handleError (cmd.liftErr se) fc with e2 | o
        · refine ⟨?_, ?_, ?_⟩ <;> simp [executeA, hbs, hh, hp, he]
        · rcases o with _ | fc'
          · refine ⟨?_, ?_, ?_⟩ <;> simp [executeA, hbs, hh, hp, he]
          · obtain ⟨ih1, ih2, ih3⟩ := ih readS pub_ (some fc')
            refine ⟨?_, ?_, ?_⟩
            · simp [executeA, hbs, hh, hp, he, ih1]
            · simpa [executeA, hbs, hh, hp, he] using ih2
            · simpa [executeA, hbs, hh, hp, he] using ih3
      · refine ⟨?_, ?_, ?_⟩ <;> simp [executeA, hbs, hh, hp]

/-- Claim C10: if a command's `event_stream_query` returns `None` (the
trait default), `build_state` never calls `read_stream` and yields the
default (empty) aggregate state together with an empty expected-version
map, so `execute` publishes that command's events with the empty
`AggregateStreamVersions` — no optimistic-concurrency constraint on the
target stream — on every loop iteration. -/
theorem no_query_no_read_no_constraint {E σ UE FC : Type}
    (cmd : CmdA E σ UE FC) (hq : cmd.eventStreamQuery = none) :
    (∀ readS, build_stateA cmd readS = ((cmd.init, []), 0)) ∧
    (∀ (fuel : Nat)
      (readS : EventStreamQuery → Except StorageErrorA (List (EventEnvelopeA E)))
      (pub_ : List E → AggregateStreamVersions → Except StorageErrorA Unit)
      (fc : Option FC),
      (executeA fuel cmd readS pub_ fc).readCalls = 0 ∧
      (∀ v ∈ (executeA fuel cmd readS pub_ fc).publishedVersions,
        v = ([] : AggregateStreamVersions)) ∧
      (∀ s ∈ (executeA fuel cmd readS pub_ fc).states, s = cmd.init)) :=
  ⟨fun readS => by simp [build_stateA, hq], executeA_no_query cmd hq⟩

/-- Witness for `no_query_no_read_no_constraint` on the query-free test
command: `build_state` yields the default state, the empty version map and
zero reads, and a three-iteration run performs zero reads. -/
theorem no_query_no_read_no_constraint_witness :
    build_stateA queryFreeCmd (fun _ => .ok []) = ((0, []), 0) ∧
    (executeA 3 queryFreeCmd (fun _ => .ok []) (fun _ _ => .ok ()) none).readCalls = 0 :=
  ⟨(no_query_no_read_no_constraint queryFreeCmd rfl).1 (fun _ => .ok []),
    ((no_query_no_read_no_constraint queryFreeCmd rfl).2 3 (fun _ => .ok [])
      (fun _ _ => .ok ()) none).1⟩

end Mneme
